import Mathlib

/-!
Shallow embedding of the trading data store in `database.py` (class
`TradingDatabase`) and of the performance-analytics functions defined on it.

Conventions used throughout:
* SQLite REAL columns of the `actual_trades` table and all simulated balances
  are modelled as rationals; TEXT columns as `String`.
* Serialized JSON blobs are modelled by an abstract `Blob` type in which
  `json.dumps` is the injective constructor `Blob.encoded` and `json.loads`
  is inverted on its image by `json_loads`; a NULL column or text rejected by the
  decoder is `Blob.undecodable`.
* SQLite compares TEXT values bytewise; this lexicographic comparison is
  `sqliteTextLe` below, defined on the code-point lists of the two strings.
* The server-assigned `created_at` of `trading_logs` (used only for the
  ORDER BY of `get_recent_logs`) is modelled as a strictly increasing
  counter, so descending creation order is reverse insertion order.
-/

/-- JSON values as produced and consumed by the Python `json` module.
Numbers are modelled as rationals, objects as ordered field lists. -/
inductive Json where
  | null
  | bool (b : Bool)
  | num (q : ℚ)
  | str (s : String)
  | arr (elems : List Json)
  | obj (fields : List (String × Json))

mutual

/-- Boolean structural equality on JSON values (used to model SQL GROUP BY
on a stored column). -/
def Json.beq : Json → Json → Bool
  | .null, .null => true
  | .bool a, .bool b => a == b
  | .num a, .num b => a == b
  | .str a, .str b => a == b
  | .arr as, .arr bs => Json.beqList as bs
  | .obj as, .obj bs => Json.beqFields as bs
  | _, _ => false

/-- Boolean equality on JSON arrays, elementwise. -/
def Json.beqList : List Json → List Json → Bool
  | [], [] => true
  | a :: as, b :: bs => Json.beq a b && Json.beqList as bs
  | _, _ => false

/-- Boolean equality on JSON object field lists, fieldwise. -/
def Json.beqFields : List (String × Json) → List (String × Json) → Bool
  | [], [] => true
  | (k1, v1) :: as, (k2, v2) :: bs => k1 == k2 && Json.beq v1 v2 && Json.beqFields as bs
  | _, _ => false

end

/-- First value bound to `key` in a JSON object field list, if any. -/
def lookupField : List (String × Json) → String → Option Json
  | [], _ => none
  | (k, v) :: rest, key => if k == key then some v else lookupField rest key

/-- Python `dict.get(key, default)` on a JSON object field list. -/
def getField (fields : List (String × Json)) (key : String) (dflt : Json) : Json :=
  (lookupField fields key).getD dflt

/-- Content of a TEXT column holding serialized JSON: either the serialization
of a JSON value or NULL/corrupt text that the decoder rejects. -/
inductive Blob where
  | encoded (j : Json)
  | undecodable

/-- Model of `json.dumps`. -/
def json_dumps (j : Json) : Blob := .encoded j

/-- Model of `json.loads` wrapped in exception handling: `none` means the
Python call raised. -/
def json_loads : Blob → Option Json
  | .encoded j => some j
  | .undecodable => none

/-- Lexicographic order on code-point lists: the order SQLite uses to compare
TEXT values (bytewise comparison agrees with code-point comparison on the
ASCII timestamps stored here). -/
def lexLeN : List Nat → List Nat → Bool
  | [], _ => true
  | _ :: _, [] => false
  | a :: as, b :: bs =>
    if a < b then true else if b < a then false else lexLeN as bs

/-- SQLite comparison `s <= t` on TEXT values. -/
def sqliteTextLe (s t : String) : Bool :=
  lexLeN (s.data.map Char.toNat) (t.data.map Char.toNat)

/-- Decimal digit character for the last digit of a number. -/
def digitChar (n : Nat) : Char := Char.ofNat (48 + n % 10)

/-- Two-digit zero-padded decimal rendering, as strftime %m, %d, %H, %M, %S
produce for their in-range arguments. -/
def pad2 (n : Nat) : String := String.mk [digitChar (n / 10), digitChar n]

/-- Four-digit zero-padded decimal rendering, as strftime %Y produces for
years below 10000. -/
def pad4 (n : Nat) : String :=
  String.mk [digitChar (n / 1000), digitChar (n / 100), digitChar (n / 10), digitChar n]

/-- A Python `datetime` value as used by `analyze_trading_performance` for
its window bounds (microseconds zero, as produced by whole-second inputs). -/
structure PyDateTime where
  year : Nat
  month : Nat
  day : Nat
  hour : Nat
  minute : Nat
  second : Nat

/-- Python `datetime.isoformat()` for a whole-second datetime. -/
def isoformat (d : PyDateTime) : String :=
  pad4 d.year ++ "-" ++ pad2 d.month ++ "-" ++ pad2 d.day ++ "T" ++
    pad2 d.hour ++ ":" ++ pad2 d.minute ++ ":" ++ pad2 d.second

/-- Python `datetime.strftime` with the calendar-date format used for the
reported window bounds. -/
def strftimeDate (d : PyDateTime) : String :=
  pad4 d.year ++ "-" ++ pad2 d.month ++ "-" ++ pad2 d.day

/-- One row of the `trading_logs` table. Columns populated from arbitrary
Python values (promoted dictionary fields) are modelled as `Json`. -/
structure LogRow where
  id : Nat
  timestamp : String
  current_price : Json
  krw_balance : Json
  btc_balance : Json
  total_portfolio_value : Json
  investment_status_json : Blob
  ai_decision : Json
  ai_reason : Json
  ai_confidence : Json
  ai_analysis_full_json : Blob
  market_data_json : Blob
  analysis_type : String
  created_at : Nat

/-- The `trading_logs` table: rows in insertion order, plus the AUTOINCREMENT
counter, which also serves as the strictly increasing creation stamp. -/
structure LogsDB where
  rows : List LogRow
  nextId : Nat

/-- One row of the `actual_trades` table. -/
structure TradeRow where
  id : Nat
  timestamp : String
  trade_type : String
  price : ℚ
  amount : ℚ
  total_value : ℚ
  fee : ℚ
  order_id : Option String
  success : Bool
  error_message : Option String
  created_at : String

/-- One row of the `portfolio_snapshots` table (`date` is the UNIQUE key). -/
structure SnapshotRow where
  date : String
  krw_balance : ℚ
  btc_balance : ℚ
  btc_avg_price : ℚ
  total_value : ℚ
  profit_loss : ℚ
  profit_loss_percent : ℚ

/-- Extraction of the investment-status sub-object in `save_analysis_log`,
as the field list of a dictionary: the empty dictionary when the key is
absent (the default of the `.get` call), and `none` when the bound value is
not a dictionary — on such inputs the subsequent `.get` calls promoting the
balance fields raise AttributeError in Python and no row is written. -/
def investmentStatusFields (market_data : List (String × Json)) :
    Option (List (String × Json)) :=
  match lookupField market_data "investment_status" with
  | none => some []
  | some (.obj fields) => some fields
  | some _ => none

/-- Row assembled by `save_analysis_log` once the investment-status field
list `inv` has been extracted: selected fields are promoted to columns with
zero/empty defaults and the three blobs are serialized. -/
def analysisLogRow (db : LogsDB) (market_data ai_analysis : List (String × Json))
    (timestamp : String) (analysis_type : String)
    (inv : List (String × Json)) : LogRow :=
  { id := db.nextId
    timestamp := timestamp
    current_price := getField market_data "current_price" (.num 0)
    krw_balance := getField inv "krw_balance" (.num 0)
    btc_balance := getField inv "btc_balance" (.num 0)
    total_portfolio_value := getField inv "total_portfolio_value" (.num 0)
    investment_status_json := json_dumps (.obj inv)
    ai_decision := getField ai_analysis "decision" (.str "")
    ai_reason := getField ai_analysis "reason" (.str "")
    ai_confidence := getField ai_analysis "confidence" (.str "")
    ai_analysis_full_json := json_dumps (.obj ai_analysis)
    market_data_json := json_dumps (.obj market_data)
    analysis_type := analysis_type
    created_at := db.nextId }

/-- Source `save_analysis_log`: appends the assembled row to `trading_logs`
and returns the updated table with the assigned id; `none` models the
AttributeError raised on a non-dictionary investment-status value, which
propagates to the caller before anything is written. -/
def save_analysis_log (db : LogsDB) (market_data ai_analysis : List (String × Json))
    (timestamp : String) (analysis_type : String) : Option (LogsDB × Nat) :=
  (investmentStatusFields market_data).map (fun inv =>
    ({ rows := db.rows ++ [analysisLogRow db market_data ai_analysis timestamp analysis_type inv]
       nextId := db.nextId + 1 }, db.nextId))

/-- Source `get_recent_logs`: SELECT * FROM trading_logs ORDER BY created_at
DESC LIMIT ?. Creation stamps strictly increase along `rows`, so descending
creation order is reverse insertion order. -/
def get_recent_logs (db : LogsDB) (limit : Nat) : List LogRow :=
  db.rows.reverse.take limit

/-- Source `save_portfolio_snapshot`: INSERT OR REPLACE keyed on the UNIQUE
`date` column, which deletes any row sharing the date and inserts the new
row. -/
def save_portfolio_snapshot (table : List SnapshotRow) (row : SnapshotRow) :
    List SnapshotRow :=
  table.filter (fun r => r.date != row.date) ++ [row]

/-- Aggregate result of `get_trading_stats`; `ai_decisions` is the GROUP BY
frequency table, read as a counting function on decision values. -/
structure TradingStats where
  total_trades : Nat
  buy_count : Nat
  sell_count : Nat
  total_fee : ℚ
  ai_decisions : Json → Nat

/-- Source `get_trading_stats`: counts and fee sum over successful trades
(WHERE success = 1), and decision frequencies over all analysis logs. -/
def get_trading_stats (trades : List TradeRow) (logs : LogsDB) : TradingStats :=
  { total_trades := (trades.filter (fun t => t.success)).length
    buy_count := (trades.filter (fun t => t.success && t.trade_type == "buy")).length
    sell_count := (trades.filter (fun t => t.success && t.trade_type == "sell")).length
    total_fee := ((trades.filter (fun t => t.success)).map (fun t => t.fee)).sum
    ai_decisions := fun d => (logs.rows.filter (fun l => Json.beq l.ai_decision d)).length }

/-- Running state of the replay loop in `analyze_trading_performance`. -/
structure SimState where
  total_profit_loss : ℚ
  successful_trades : Nat
  failed_trades : Nat
  btc_balance : ℚ
  krw_balance : ℚ

/-- Initial replay state: zero balances and counters except the fixed nominal
starting capital of 1000000 KRW. -/
def initSimState : SimState :=
  { total_profit_loss := 0
    successful_trades := 0
    failed_trades := 0
    btc_balance := 0
    krw_balance := 1000000 }

/-- One iteration of the replay loop. Row indices in the source resolve as
trade[2] = trade_type, trade[3] = price, trade[4] = amount,
trade[5] = total_value; in the buy branch the source reads trade[4]
(the amount column) in both updates, although its inline comments say
total_value. -/
def processTrade (s : SimState) (t : TradeRow) : SimState :=
  if t.trade_type == "buy" then
    { s with
      btc_balance := s.btc_balance + t.amount / t.price
      krw_balance := s.krw_balance - t.amount }
  else if t.trade_type == "sell" then
    let btc_sold := t.amount
    let profit := t.total_value - btc_sold * t.price
    { s with
      btc_balance := s.btc_balance - btc_sold
      krw_balance := s.krw_balance + t.total_value
      total_profit_loss := s.total_profit_loss + profit
      successful_trades := if profit > 0 then s.successful_trades + 1 else s.successful_trades
      failed_trades := if profit > 0 then s.failed_trades else s.failed_trades + 1 }
  else s

/-- The WHERE clause of the analysis query: successful trades whose creation
stamp lies between the two isoformat window bounds, both ends inclusive. -/
def tradesInWindow (db : List TradeRow) (start_date end_date : PyDateTime) :
    List TradeRow :=
  db.filter (fun t =>
    sqliteTextLe (isoformat start_date) t.created_at &&
    sqliteTextLe t.created_at (isoformat end_date) && t.success)

/-- Insert a trade after every already-placed trade whose creation stamp is
not later, the position ORDER BY created_at allots it. -/
def insertChrono (t : TradeRow) : List TradeRow → List TradeRow
  | [] => [t]
  | u :: us =>
    if sqliteTextLe u.created_at t.created_at then u :: insertChrono t us
    else t :: u :: us

/-- ORDER BY created_at on the queried trades (insertion sort; ties carry no
guaranteed order in SQL and none is relied on). -/
def sortChrono : List TradeRow → List TradeRow
  | [] => []
  | t :: ts => insertChrono t (sortChrono ts)

/-- Result dictionary of `analyze_trading_performance`. The two branches of
the source return different key sets; a key absent from a branch is `none`. -/
structure PerfResult where
  total_trades : Nat
  successful_trades : Nat
  failed_trades : Nat
  total_profit_loss : ℚ
  win_rate : ℚ
  analysis_period : Option String
  analysis_period_start : Option String
  analysis_period_end : Option String
  trades_data : Option (List TradeRow)

/-- Source `analyze_trading_performance` with the window bounds (end = now,
start = now minus the requested days) passed explicitly: loads the successful
trades of the window in creation order, returns the zero-filled short form
when there are none, and otherwise replays them through `processTrade`. -/
def analyze_trading_performance (db : List TradeRow) (start_date end_date : PyDateTime) :
    PerfResult :=
  let trades := sortChrono (tradesInWindow db start_date end_date)
  if trades.isEmpty then
    { total_trades := 0
      successful_trades := 0
      failed_trades := 0
      total_profit_loss := 0
      win_rate := 0
      analysis_period := some (strftimeDate start_date ++ " to " ++ strftimeDate end_date)
      analysis_period_start := none
      analysis_period_end := none
      trades_data := none }
  else
    let st := trades.foldl processTrade initSimState
    { total_trades := trades.length
      successful_trades := st.successful_trades
      failed_trades := st.failed_trades
      total_profit_loss := st.total_profit_loss
      win_rate :=
        if trades.length > 0 then
          (st.successful_trades : ℚ) / (trades.length : ℚ) * 100
        else 0
      analysis_period := none
      analysis_period_start := some (strftimeDate start_date)
      analysis_period_end := some (strftimeDate end_date)
      trades_data := some trades }

/-- Result of `get_market_context`: the empty dictionary, the minimal
price-and-timestamp fallback, or the fully decoded context. -/
inductive MarketContext where
  | empty
  | minimal (price : Json) (timestamp : String)
  | full (price : Json) (technical_indicators : Json) (fear_greed : Json) (timestamp : String)

/-- Decoding step of `get_market_context` on the selected row: a market-data
blob that decodes to a dictionary yields the full context; any decode failure
is caught and degrades to the minimal context. -/
def decodeMarketContext (log : LogRow) : MarketContext :=
  match json_loads log.market_data_json with
  | some (.obj md) =>
      .full log.current_price (getField md "technical_indicators" (.obj []))
        (getField md "fear_greed_index" (.arr [])) log.timestamp
  | _ => .minimal log.current_price log.timestamp

/-- Row with the greatest timestamp (SQL max via ORDER BY timestamp DESC
LIMIT 1; ties carry no guaranteed choice and none is relied on). -/
def maxByTs : List LogRow → Option LogRow
  | [] => none
  | l :: ls =>
    match maxByTs ls with
    | none => some l
    | some b => if sqliteTextLe l.timestamp b.timestamp then some b else some l

/-- The query of `get_market_context`: among rows whose caller-supplied
timestamp is at most the bound, the one with the greatest timestamp. -/
def latestLogAtOrBefore (logs : List LogRow) (ts : String) : Option LogRow :=
  maxByTs (logs.filter (fun l => sqliteTextLe l.timestamp ts))

/-- Source `get_market_context`: empty dictionary when no row qualifies,
otherwise the decoded context of the selected row. Total by construction:
the only fallible step, blob decoding, is absorbed by `decodeMarketContext`. -/
def get_market_context (logs : List LogRow) (ts : String) : MarketContext :=
  match latestLogAtOrBefore logs ts with
  | none => .empty
  | some log => decodeMarketContext log

/-- One line of the legacy migration file, classified by its decoding:
skipped as blank, raising during the JSON decode or the field accesses on a
non-dictionary decode result, or decoded into the
market-data/AI-analysis/timestamp shape. An error raised inside the storage
call itself is modelled inside `save_analysis_log` and handled by the line
loop below. -/
inductive MigrationLine where
  | blank
  | malformed
  | record (market_data ai_analysis : List (String × Json)) (timestamp : Option String)

/-- The migration file: absent on disk, or a list of lines. -/
inductive FileContent where
  | missing
  | contents (lines : List MigrationLine)

/-- How `migrate_from_json` returned: all lines processed, missing file
logged, or an error mid-file logged with the rest of the file skipped.
All three are normal returns of the Python function. -/
inductive MigrationOutcome where
  | completed
  | fileNotFound
  | aborted

/-- Line loop of `migrate_from_json`: blanks are skipped, records forwarded
to `save_analysis_log` (absent timestamp defaulted to the current time), and
the first raising line — whether it raises during decode or inside the
storage call — ends the loop via the exception handler, keeping the rows
already imported. -/
def migrateLines (db : LogsDB) (now : String) : List MigrationLine → LogsDB × MigrationOutcome
  | [] => (db, .completed)
  | .blank :: rest => migrateLines db now rest
  | .malformed :: _ => (db, .aborted)
  | .record md aa ts :: rest =>
      match save_analysis_log db md aa (ts.getD now) "enhanced" with
      | some (db2, _) => migrateLines db2 now rest
      | none => (db, .aborted)

/-- Source `migrate_from_json`: a missing file is logged and the call returns
normally; otherwise the lines are processed in order. -/
def migrate_from_json (db : LogsDB) (file : FileContent) (now : String) :
    LogsDB × MigrationOutcome :=
  match file with
  | .missing => (db, .fileNotFound)
  | .contents ls => migrateLines db now ls

/-- Example analysis window start, 2024-01-01 00:00:00. -/
def exStart : PyDateTime := ⟨2024, 1, 1, 0, 0, 0⟩

/-- Example analysis window end, 2024-01-08 00:00:00. -/
def exEnd : PyDateTime := ⟨2024, 1, 8, 0, 0, 0⟩

/-- Example successful buy inside the window: price 1, amount 1, total 1. -/
def exBuyTrade : TradeRow :=
  { id := 1
    timestamp := "2024-01-02T10:00:00"
    trade_type := "buy"
    price := 1
    amount := 1
    total_value := 1
    fee := 0
    order_id := none
    success := true
    error_message := none
    created_at := "2024-01-02 10:00:00" }

/-- Example successful winning sell inside the window: price 1, amount 1,
total 2, so its replay profit is 2 - 1 * 1 = 1 > 0. -/
def exSellTrade : TradeRow :=
  { id := 2
    timestamp := "2024-01-03T10:00:00"
    trade_type := "sell"
    price := 1
    amount := 1
    total_value := 2
    fee := 0
    order_id := none
    success := true
    error_message := none
    created_at := "2024-01-03 10:00:00" }

/-- Example trade ledger holding one successful buy and one successful
winning sell, both inside the example window. -/
def exTradesDb : List TradeRow := [exBuyTrade, exSellTrade]

/-- Example successful buy whose amount (1) differs from its total value (6):
price 2, so the specified BTC increment would be 6 / 2 = 3 and the actual
one is 1 / 2. -/
def bugBuyTrade : TradeRow :=
  { id := 3
    timestamp := "2024-01-04T10:00:00"
    trade_type := "buy"
    price := 2
    amount := 1
    total_value := 6
    fee := 0
    order_id := none
    success := true
    error_message := none
    created_at := "2024-01-04 10:00:00" }

/-- Example failed trade (success flag false) inside the window. -/
def exFailedTrade : TradeRow :=
  { id := 4
    timestamp := "2024-01-05T10:00:00"
    trade_type := "sell"
    price := 7
    amount := 2
    total_value := 9
    fee := 1
    order_id := none
    success := false
    error_message := some "insufficient funds"
    created_at := "2024-01-05 10:00:00" }

/-- Example snapshot write for 2024-01-05. -/
def exSnapshotA : SnapshotRow :=
  { date := "2024-01-05"
    krw_balance := 1
    btc_balance := 2
    btc_avg_price := 3
    total_value := 4
    profit_loss := 5
    profit_loss_percent := 6 }

/-- Second example snapshot write for the same date 2024-01-05 with
different values. -/
def exSnapshotB : SnapshotRow :=
  { date := "2024-01-05"
    krw_balance := 10
    btc_balance := 20
    btc_avg_price := 30
    total_value := 40
    profit_loss := 50
    profit_loss_percent := 60 }

/-- Example stored analysis-log row with a decodable market-data blob. -/
def exLogRow : LogRow :=
  { id := 1
    timestamp := "2024-01-02T09:00:00"
    current_price := .num 100
    krw_balance := .num 5
    btc_balance := .num 0
    total_portfolio_value := .num 5
    investment_status_json := json_dumps (.obj [("krw_balance", .num 5)])
    ai_decision := .str "hold"
    ai_reason := .str "wait"
    ai_confidence := .str "low"
    ai_analysis_full_json := json_dumps (.obj [("decision", .str "hold")])
    market_data_json := json_dumps (.obj
      [("technical_indicators", .obj [("rsi", .num 50)]),
       ("fear_greed_index", .arr [.num 20])])
    analysis_type := "enhanced"
    created_at := 1 }

/-- Empty `trading_logs` table. -/
def emptyLogs : LogsDB := ⟨[], 1⟩

/-- Example investment-status field list carried by `exMarketData`. -/
def exInvStatus : List (String × Json) :=
  [("krw_balance", .num 5), ("btc_balance", .num 0)]

/-- Example market-data input for a write. -/
def exMarketData : List (String × Json) :=
  [("current_price", .num 100), ("investment_status", .obj exInvStatus)]

/-- Example market-data input whose investment-status value is a number, on
which `save_analysis_log` raises AttributeError and writes nothing. -/
def exBadMarketData : List (String × Json) :=
  [("current_price", .num 100), ("investment_status", .num 7)]

/-- Example AI-analysis input for a write. -/
def exAiAnalysis : List (String × Json) :=
  [("decision", .str "buy"), ("reason", .str "uptrend"), ("confidence", .str "high")]

theorem lexLeN_refl : ∀ as, lexLeN as as = true := by
  intro as
  induction as with
  | nil => rfl
  | cons a as ih => simp [lexLeN, ih]

theorem lexLeN_total : ∀ as bs, lexLeN as bs = true ∨ lexLeN bs as = true := by
  intro as
  induction as with
  | nil => intro bs; left; rfl
  | cons a as ih =>
    intro bs
    cases bs with
    | nil => right; rfl
    | cons b bs =>
      simp only [lexLeN]
      rcases ih bs with h | h <;> split_ifs <;> simp_all

theorem lexLeN_trans : ∀ as bs cs, lexLeN as bs = true → lexLeN bs cs = true →
    lexLeN as cs = true := by
  intro as
  induction as with
  | nil => intros; rfl
  | cons a as ih =>
    intro bs cs h1 h2
    cases bs with
    | nil => simp [lexLeN] at h1
    | cons b bs =>
      cases cs with
      | nil => simp [lexLeN] at h2
      | cons c cs =>
        simp only [lexLeN] at h1 h2 ⊢
        split_ifs at h1 h2 ⊢ <;> try omega
        all_goals (try exact ih bs cs h1 h2)
        all_goals simp_all

theorem sqliteTextLe_refl (s : String) : sqliteTextLe s s = true :=
  lexLeN_refl _

theorem sqliteTextLe_total (s t : String) :
    sqliteTextLe s t = true ∨ sqliteTextLe t s = true :=
  lexLeN_total _ _

theorem sqliteTextLe_trans {s t u : String} (h1 : sqliteTextLe s t = true)
    (h2 : sqliteTextLe t u = true) : sqliteTextLe s u = true :=
  lexLeN_trans _ _ _ h1 h2

theorem maxByTs_eq_none_iff (xs : List LogRow) : maxByTs xs = none ↔ xs = [] := by
  cases xs with
  | nil => simp [maxByTs]
  | cons l ls =>
    simp only [maxByTs]
    constructor
    · intro h
      exfalso
      rcases hm : maxByTs ls with _ | b
      · rw [hm] at h
        exact Option.noConfusion h
      · rw [hm] at h
        dsimp only at h
        split at h <;> exact Option.noConfusion h
    · intro h
      exact List.noConfusion h

theorem maxByTs_mem : ∀ {xs : List LogRow} {r : LogRow}, maxByTs xs = some r → r ∈ xs := by
  intro xs
  induction xs with
  | nil => intro r h; simp [maxByTs] at h
  | cons l ls ih =>
    intro r h
    rcases hm : maxByTs ls with _ | b
    · simp only [maxByTs, hm, Option.some.injEq] at h
      subst h
      exact List.mem_cons_self _ _
    · simp only [maxByTs, hm] at h
      split at h <;> simp only [Option.some.injEq] at h <;> subst h
      · exact List.mem_cons_of_mem _ (ih hm)
      · exact List.mem_cons_self _ _

theorem maxByTs_ge : ∀ {xs : List LogRow} {r : LogRow}, maxByTs xs = some r →
    ∀ x ∈ xs, sqliteTextLe x.timestamp r.timestamp = true := by
  intro xs
  induction xs with
  | nil => intro r h; simp [maxByTs] at h
  | cons l ls ih =>
    intro r h x hx
    rcases hm : maxByTs ls with _ | b
    · have hnil : ls = [] := (maxByTs_eq_none_iff ls).1 hm
      subst hnil
      simp only [maxByTs, Option.some.injEq] at h
      subst h
      simp only [List.mem_singleton] at hx
      subst hx
      exact sqliteTextLe_refl _
    · simp only [maxByTs, hm] at h
      split at h <;> simp only [Option.some.injEq] at h <;> subst h
      · rename_i hcond
        rcases List.mem_cons.1 hx with hxl | hxls
        · subst hxl
          simpa using hcond
        · exact ih hm x hxls
      · rename_i hcond
        have hbl : sqliteTextLe b.timestamp l.timestamp = true := by
          rcases sqliteTextLe_total l.timestamp b.timestamp with h' | h'
          · exact absurd h' (by simpa using hcond)
          · exact h'
        rcases List.mem_cons.1 hx with hxl | hxls
        · subst hxl
          exact sqliteTextLe_refl _
        · exact sqliteTextLe_trans (ih hm x hxls) hbl

theorem insertChrono_length (t : TradeRow) : ∀ ts : List TradeRow,
    (insertChrono t ts).length = ts.length + 1 := by
  intro ts
  induction ts with
  | nil => rfl
  | cons u us ih =>
    simp only [insertChrono]
    split <;> simp [ih]

theorem sortChrono_length : ∀ ts : List TradeRow, (sortChrono ts).length = ts.length := by
  intro ts
  induction ts with
  | nil => rfl
  | cons t ts ih => simp [sortChrono, insertChrono_length, ih]

theorem sortChrono_eq_nil_iff (ts : List TradeRow) : sortChrono ts = [] ↔ ts = [] := by
  constructor
  · intro h
    have := congrArg List.length h
    rw [sortChrono_length] at this
    exact List.length_eq_zero.1 this
  · intro h
    subst h
    rfl

theorem strftimeDate_ne_empty (d : PyDateTime) : strftimeDate d ≠ "" := by
  intro h
  have hlen := congrArg String.length h
  simp only [strftimeDate, pad4, pad2, String.length_append] at hlen
  simp [String.length] at hlen

theorem analyze_empty_eq (db : List TradeRow) (s e : PyDateTime)
    (h : tradesInWindow db s e = []) :
    analyze_trading_performance db s e =
      { total_trades := 0
        successful_trades := 0
        failed_trades := 0
        total_profit_loss := 0
        win_rate := 0
        analysis_period := some (strftimeDate s ++ " to " ++ strftimeDate e)
        analysis_period_start := none
        analysis_period_end := none
        trades_data := none } := by
  unfold analyze_trading_performance
  rw [h]
  rfl

theorem analyze_nonempty_eq (db : List TradeRow) (s e : PyDateTime)
    (h : tradesInWindow db s e ≠ []) :
    analyze_trading_performance db s e =
      { total_trades := (sortChrono (tradesInWindow db s e)).length
        successful_trades :=
          ((sortChrono (tradesInWindow db s e)).foldl processTrade initSimState).successful_trades
        failed_trades :=
          ((sortChrono (tradesInWindow db s e)).foldl processTrade initSimState).failed_trades
        total_profit_loss :=
          ((sortChrono (tradesInWindow db s e)).foldl processTrade initSimState).total_profit_loss
        win_rate :=
          (((sortChrono (tradesInWindow db s e)).foldl processTrade
              initSimState).successful_trades : ℚ) /
            ((sortChrono (tradesInWindow db s e)).length : ℚ) * 100
        analysis_period := none
        analysis_period_start := some (strftimeDate s)
        analysis_period_end := some (strftimeDate e)
        trades_data := some (sortChrono (tradesInWindow db s e)) } := by
  have hs : sortChrono (tradesInWindow db s e) ≠ [] := by
    intro h0
    exact h ((sortChrono_eq_nil_iff _).1 h0)
  have hempty : (sortChrono (tradesInWindow db s e)).isEmpty = false := by
    cases hcase : sortChrono (tradesInWindow db s e) with
    | nil => exact absurd hcase hs
    | cons a l => rfl
  have hpos : 0 < (sortChrono (tradesInWindow db s e)).length :=
    List.length_pos.2 hs
  unfold analyze_trading_performance
  simp only [hempty, Bool.false_eq_true, if_false]
  rw [if_pos hpos]

theorem processTrade_buy (s : SimState) (t : TradeRow) (h : t.trade_type = "buy") :
    processTrade s t =
      { s with
        btc_balance := s.btc_balance + t.amount / t.price
        krw_balance := s.krw_balance - t.amount } := by
  unfold processTrade
  rw [h]
  rfl

theorem processTrade_sell (s : SimState) (t : TradeRow) (h : t.trade_type = "sell") :
    processTrade s t =
      { s with
        btc_balance := s.btc_balance - t.amount
        krw_balance := s.krw_balance + t.total_value
        total_profit_loss := s.total_profit_loss + (t.total_value - t.amount * t.price)
        successful_trades :=
          if t.total_value - t.amount * t.price > 0 then s.successful_trades + 1
          else s.successful_trades
        failed_trades :=
          if t.total_value - t.amount * t.price > 0 then s.failed_trades
          else s.failed_trades + 1 } := by
  unfold processTrade
  rw [h]
  rfl

theorem filter_eq_save_snapshot (t : List SnapshotRow) (r : SnapshotRow) :
    (save_portfolio_snapshot t r).filter (fun x => x.date == r.date) = [r] := by
  simp only [save_portfolio_snapshot, List.filter_append]
  have h1 : (t.filter (fun x => x.date != r.date)).filter (fun x => x.date == r.date) = [] := by
    induction t with
    | nil => rfl
    | cons a t ih =>
      by_cases had : a.date = r.date
      · simp [List.filter_cons, had, ih]
      · simp [List.filter_cons, had, ih]
  rw [h1]
  simp

theorem migrateLines_malformed_stops :
    ∀ (pre : List MigrationLine) (db : LogsDB) (now : String) (rest : List MigrationLine),
      (∀ l ∈ pre, l ≠ MigrationLine.malformed) →
      migrateLines db now (pre ++ MigrationLine.malformed :: rest) =
        ((migrateLines db now pre).1, .aborted) := by
  intro pre
  induction pre with
  | nil => intro db now rest h; rfl
  | cons l pre ih =>
    intro db now rest h
    have hl : l ≠ MigrationLine.malformed := h l (List.mem_cons_self _ _)
    have hpre : ∀ x ∈ pre, x ≠ MigrationLine.malformed :=
      fun x hx => h x (List.mem_cons_of_mem _ hx)
    cases l with
    | blank =>
      simp only [List.cons_append, migrateLines]
      exact ih db now rest hpre
    | malformed => exact absurd rfl hl
    | record md aa ts =>
      simp only [List.cons_append, migrateLines]
      cases hsv : save_analysis_log db md aa (ts.getD now) "enhanced" with
      | none => rfl
      | some p =>
        obtain ⟨db2, n⟩ := p
        exact ih db2 now rest hpre

/-- C1: the claimed buy update is violated by the code. Replaying the
concrete successful buy trade `bugBuyTrade` (price 2, amount 1, total value
6) adds amount / price = 1/2 BTC to the simulated BTC balance — not
total value / price = 3 — and subtracts amount = 1 from the simulated KRW
balance — not total value = 6. -/
theorem buy_replay_reads_amount_column :
    (processTrade initSimState bugBuyTrade).btc_balance =
        initSimState.btc_balance + bugBuyTrade.amount / bugBuyTrade.price ∧
    (processTrade initSimState bugBuyTrade).krw_balance =
        initSimState.krw_balance - bugBuyTrade.amount ∧
    (processTrade initSimState bugBuyTrade).btc_balance ≠
        initSimState.btc_balance + bugBuyTrade.total_value / bugBuyTrade.price ∧
    (processTrade initSimState bugBuyTrade).krw_balance ≠
        initSimState.krw_balance - bugBuyTrade.total_value := by
  refine ⟨rfl, rfl, ?_, ?_⟩
  · rw [processTrade_buy initSimState bugBuyTrade rfl]
    simp only [bugBuyTrade, initSimState]
    norm_num
  · rw [processTrade_buy initSimState bugBuyTrade rfl]
    simp only [bugBuyTrade, initSimState]
    norm_num

/-- C3: replaying a trade of type sell updates the simulation state exactly
as specified: the BTC balance falls by the amount, the KRW balance rises by
the total value, the profit total value - amount * price is accumulated into
the running P&L, and the trade counts as a win exactly when that profit is
strictly positive — a zero profit counts as a loss. -/
theorem sell_replay_step (s : SimState) (t : TradeRow) (h : t.trade_type = "sell") :
    (processTrade s t).btc_balance = s.btc_balance - t.amount ∧
    (processTrade s t).krw_balance = s.krw_balance + t.total_value ∧
    (processTrade s t).total_profit_loss =
      s.total_profit_loss + (t.total_value - t.amount * t.price) ∧
    ((processTrade s t).successful_trades =
      if t.total_value - t.amount * t.price > 0 then s.successful_trades + 1
      else s.successful_trades) ∧
    ((processTrade s t).failed_trades =
      if t.total_value - t.amount * t.price > 0 then s.failed_trades
      else s.failed_trades + 1) ∧
    (t.total_value - t.amount * t.price = 0 →
      (processTrade s t).successful_trades = s.successful_trades ∧
      (processTrade s t).failed_trades = s.failed_trades + 1) := by
  rw [processTrade_sell s t h]
  refine ⟨rfl, rfl, rfl, rfl, rfl, ?_⟩
  intro h0
  constructor <;> simp [h0]

/-- Witness for C3 at the concrete winning sell `exSellTrade` from the
initial simulation state. -/
theorem sell_replay_step_witness :
    exSellTrade.trade_type = "sell" ∧
    ((processTrade initSimState exSellTrade).btc_balance =
        initSimState.btc_balance - exSellTrade.amount ∧
      (processTrade initSimState exSellTrade).krw_balance =
        initSimState.krw_balance + exSellTrade.total_value ∧
      (processTrade initSimState exSellTrade).total_profit_loss =
        initSimState.total_profit_loss +
          (exSellTrade.total_value - exSellTrade.amount * exSellTrade.price) ∧
      ((processTrade initSimState exSellTrade).successful_trades =
        if exSellTrade.total_value - exSellTrade.amount * exSellTrade.price > 0 then
          initSimState.successful_trades + 1
        else initSimState.successful_trades) ∧
      ((processTrade initSimState exSellTrade).failed_trades =
        if exSellTrade.total_value - exSellTrade.amount * exSellTrade.price > 0 then
          initSimState.failed_trades
        else initSimState.failed_trades + 1) ∧
      (exSellTrade.total_value - exSellTrade.amount * exSellTrade.price = 0 →
        (processTrade initSimState exSellTrade).successful_trades =
          initSimState.successful_trades ∧
        (processTrade initSimState exSellTrade).failed_trades =
          initSimState.failed_trades + 1)) :=
  ⟨rfl, sell_replay_step initSimState exSellTrade rfl⟩

/-- C4: after two snapshot writes sharing a date, the table holds exactly one
row for that date, namely the second write verbatim — the write replaces
rather than duplicates. -/
theorem snapshot_upsert_by_date (table : List SnapshotRow) (r1 r2 : SnapshotRow)
    (_h : r1.date = r2.date) :
    (save_portfolio_snapshot (save_portfolio_snapshot table r1) r2).filter
      (fun x => x.date == r2.date) = [r2] :=
  filter_eq_save_snapshot (save_portfolio_snapshot table r1) r2

/-- Witness for C4 at the two concrete same-date snapshot writes. -/
theorem snapshot_upsert_by_date_witness :
    exSnapshotA.date = exSnapshotB.date ∧
    (save_portfolio_snapshot (save_portfolio_snapshot [] exSnapshotA) exSnapshotB).filter
      (fun x => x.date == exSnapshotB.date) = [exSnapshotB] :=
  ⟨rfl, snapshot_upsert_by_date [] exSnapshotA exSnapshotB rfl⟩

/-- C5: a trade stored with the success flag false changes neither the
aggregate statistics nor the trade list the performance analysis loads, and
therefore not its result either. -/
theorem failed_trade_excluded (trades : List TradeRow) (logs : LogsDB) (t : TradeRow)
    (s e : PyDateTime) (h : t.success = false) :
    get_trading_stats (trades ++ [t]) logs = get_trading_stats trades logs ∧
    tradesInWindow (trades ++ [t]) s e = tradesInWindow trades s e ∧
    analyze_trading_performance (trades ++ [t]) s e =
      analyze_trading_performance trades s e := by
  have hw : tradesInWindow (trades ++ [t]) s e = tradesInWindow trades s e := by
    simp [tradesInWindow, List.filter_append, h]
  refine ⟨?_, hw, ?_⟩
  · simp [get_trading_stats, List.filter_append, h]
  · unfold analyze_trading_performance
    rw [hw]

/-- Witness for C5 at the concrete failed trade `exFailedTrade` appended to
the example ledger. -/
theorem failed_trade_excluded_witness :
    exFailedTrade.success = false ∧
    (get_trading_stats (exTradesDb ++ [exFailedTrade]) emptyLogs =
        get_trading_stats exTradesDb emptyLogs ∧
      tradesInWindow (exTradesDb ++ [exFailedTrade]) exStart exEnd =
        tradesInWindow exTradesDb exStart exEnd ∧
      analyze_trading_performance (exTradesDb ++ [exFailedTrade]) exStart exEnd =
        analyze_trading_performance exTradesDb exStart exEnd) :=
  ⟨rfl, failed_trade_excluded exTradesDb emptyLogs exFailedTrade exStart exEnd rfl⟩

/-- C7: over a window containing no successful trade the analysis returns,
without error, the zero-filled result whose formatted calendar-date window
bounds are both non-empty. -/
theorem empty_window_zero_result (db : List TradeRow) (s e : PyDateTime)
    (h : tradesInWindow db s e = []) :
    (analyze_trading_performance db s e).total_trades = 0 ∧
    (analyze_trading_performance db s e).total_profit_loss = 0 ∧
    (analyze_trading_performance db s e).win_rate = 0 ∧
    (analyze_trading_performance db s e).successful_trades = 0 ∧
    (analyze_trading_performance db s e).failed_trades = 0 ∧
    (analyze_trading_performance db s e).analysis_period =
      some (strftimeDate s ++ " to " ++ strftimeDate e) ∧
    strftimeDate s ≠ "" ∧ strftimeDate e ≠ "" := by
  rw [analyze_empty_eq db s e h]
  exact ⟨rfl, rfl, rfl, rfl, rfl, rfl, strftimeDate_ne_empty s, strftimeDate_ne_empty e⟩

/-- Witness for C7 on the empty ledger over the example window. -/
theorem empty_window_zero_result_witness :
    tradesInWindow [] exStart exEnd = [] ∧
    ((analyze_trading_performance [] exStart exEnd).total_trades = 0 ∧
      (analyze_trading_performance [] exStart exEnd).total_profit_loss = 0 ∧
      (analyze_trading_performance [] exStart exEnd).win_rate = 0 ∧
      (analyze_trading_performance [] exStart exEnd).successful_trades = 0 ∧
      (analyze_trading_performance [] exStart exEnd).failed_trades = 0 ∧
      (analyze_trading_performance [] exStart exEnd).analysis_period =
        some (strftimeDate exStart ++ " to " ++ strftimeDate exEnd) ∧
      strftimeDate exStart ≠ "" ∧ strftimeDate exEnd ≠ "") :=
  ⟨rfl, empty_window_zero_result [] exStart exEnd rfl⟩

/-- C10: the two branches of the analysis result have different key shapes:
the window bounds sit in the single analysis_period key exactly when the
window is empty, and in the separate start/end keys — together with the raw
trades_data key — exactly when it is not. -/
theorem analysis_result_key_shape (db : List TradeRow) (s e : PyDateTime) :
    ((analyze_trading_performance db s e).analysis_period.isSome =
      (tradesInWindow db s e).isEmpty) ∧
    ((analyze_trading_performance db s e).analysis_period_start.isSome =
      !(tradesInWindow db s e).isEmpty) ∧
    ((analyze_trading_performance db s e).analysis_period_end.isSome =
      !(tradesInWindow db s e).isEmpty) ∧
    ((analyze_trading_performance db s e).trades_data.isSome =
      !(tradesInWindow db s e).isEmpty) := by
  cases hw : tradesInWindow db s e with
  | nil =>
    rw [analyze_empty_eq db s e hw]
    simp
  | cons t ts =>
    rw [analyze_nonempty_eq db s e (by rw [hw]; exact fun hx => List.noConfusion hx)]
    simp [hw]

/-- C2 counterexample: over a window holding exactly one successful buy and
one successful winning sell, total_trades is 2 — the buy is counted in the
denominator, against the claimed 1 — and the win rate is 50, not 100. -/
theorem total_trades_counts_buys_counterexample :
    (analyze_trading_performance exTradesDb exStart exEnd).total_trades = 2 ∧
    (analyze_trading_performance exTradesDb exStart exEnd).total_trades ≠ 1 ∧
    (analyze_trading_performance exTradesDb exStart exEnd).win_rate = 50 ∧
    (analyze_trading_performance exTradesDb exStart exEnd).win_rate ≠ 100 := by
  have hw : tradesInWindow exTradesDb exStart exEnd = [exBuyTrade, exSellTrade] := by rfl
  have hne : tradesInWindow exTradesDb exStart exEnd ≠ [] := by
    rw [hw]; exact fun hx => List.noConfusion hx
  have heq := analyze_nonempty_eq exTradesDb exStart exEnd hne
  rw [hw] at heq
  have hsort : sortChrono [exBuyTrade, exSellTrade] = [exBuyTrade, exSellTrade] := by rfl
  rw [hsort] at heq
  have hfold : (List.foldl processTrade initSimState [exBuyTrade, exSellTrade]).successful_trades = 1 := by
    simp only [List.foldl_cons, List.foldl_nil]
    rw [processTrade_buy initSimState exBuyTrade rfl]
    rw [processTrade_sell _ exSellTrade rfl]
    simp only [exSellTrade, initSimState]
    norm_num
  rw [heq]
  refine ⟨rfl, by norm_num, ?_, ?_⟩
  · simp only [hfold, List.length_cons, List.length_nil]
    norm_num
  · simp only [hfold, List.length_cons, List.length_nil]
    norm_num

/-- C2 amended: over a non-empty window, total_trades is the number of all
successful trades loaded for the window — buys included, not only the
classified sells — and the win rate is successful_trades divided by that
total, times 100; for a window with one successful buy and one successful
winning sell this gives total_trades 2 and win rate 50. -/
theorem win_rate_over_all_loaded_trades (db : List TradeRow) (s e : PyDateTime)
    (h : tradesInWindow db s e ≠ []) :
    (analyze_trading_performance db s e).total_trades =
      (tradesInWindow db s e).length ∧
    (analyze_trading_performance db s e).win_rate =
      ((analyze_trading_performance db s e).successful_trades : ℚ) /
        ((analyze_trading_performance db s e).total_trades : ℚ) * 100 := by
  rw [analyze_nonempty_eq db s e h]
  exact ⟨sortChrono_length _, rfl⟩

/-- Witness for the amended C2 at the example one-buy-one-sell window. -/
theorem win_rate_over_all_loaded_trades_witness :
    tradesInWindow exTradesDb exStart exEnd ≠ [] ∧
    ((analyze_trading_performance exTradesDb exStart exEnd).total_trades =
        (tradesInWindow exTradesDb exStart exEnd).length ∧
      (analyze_trading_performance exTradesDb exStart exEnd).win_rate =
        ((analyze_trading_performance exTradesDb exStart exEnd).successful_trades : ℚ) /
          ((analyze_trading_performance exTradesDb exStart exEnd).total_trades : ℚ) * 100) :=
  have hne : tradesInWindow exTradesDb exStart exEnd ≠ [] :=
    fun hx => List.noConfusion hx
  ⟨hne, win_rate_over_all_loaded_trades exTradesDb exStart exEnd hne⟩

/-- C6: the market-context query is total and case-complete: when no stored
row has a caller-supplied timestamp at most the bound it returns the empty
result; otherwise it returns the decoding of a qualifying row whose
timestamp is greatest among the qualifying rows — the full decoded context
when the market-data blob decodes to a dictionary, and the minimal
price-and-timestamp fallback when decoding fails. -/
theorem market_context_cases (logs : List LogRow) (ts : String) :
    ((∀ l ∈ logs, sqliteTextLe l.timestamp ts = false) →
        get_market_context logs ts = .empty) ∧
    ((∃ l ∈ logs, sqliteTextLe l.timestamp ts = true) → ∃ r,
        latestLogAtOrBefore logs ts = some r ∧ r ∈ logs ∧
        sqliteTextLe r.timestamp ts = true ∧
        (∀ l ∈ logs, sqliteTextLe l.timestamp ts = true →
          sqliteTextLe l.timestamp r.timestamp = true) ∧
        get_market_context logs ts = decodeMarketContext r ∧
        (json_loads r.market_data_json = none →
          decodeMarketContext r = .minimal r.current_price r.timestamp) ∧
        (∀ md, json_loads r.market_data_json = some (.obj md) →
          decodeMarketContext r = .full r.current_price
            (getField md "technical_indicators" (.obj []))
            (getField md "fear_greed_index" (.arr [])) r.timestamp)) := by
  constructor
  · intro hall
    have hfilter : logs.filter (fun l => sqliteTextLe l.timestamp ts) = [] := by
      apply List.filter_eq_nil_iff.2
      intro a ha
      simp [hall a ha]
    unfold get_market_context latestLogAtOrBefore
    rw [hfilter]
    rfl
  · rintro ⟨l0, hl0, hle0⟩
    have hmem : l0 ∈ logs.filter (fun l => sqliteTextLe l.timestamp ts) :=
      List.mem_filter.2 ⟨hl0, by simp [hle0]⟩
    have hne : logs.filter (fun l => sqliteTextLe l.timestamp ts) ≠ [] := by
      intro h0
      rw [h0] at hmem
      simp at hmem
    obtain ⟨r, hr⟩ :
        ∃ r, maxByTs (logs.filter (fun l => sqliteTextLe l.timestamp ts)) = some r := by
      cases hcase : maxByTs (logs.filter (fun l => sqliteTextLe l.timestamp ts)) with
      | none => exact absurd ((maxByTs_eq_none_iff _).1 hcase) hne
      | some r => exact ⟨r, rfl⟩
    have hrmem := maxByTs_mem hr
    have hrin : r ∈ logs := (List.mem_filter.1 hrmem).1
    have hrle : sqliteTextLe r.timestamp ts = true := by
      have := (List.mem_filter.1 hrmem).2
      simpa using this
    refine ⟨r, hr, hrin, hrle, ?_, ?_, ?_, ?_⟩
    · intro l hl hlle
      exact maxByTs_ge hr l (List.mem_filter.2 ⟨hl, by simp [hlle]⟩)
    · have hlatest : latestLogAtOrBefore logs ts = some r := hr
      unfold get_market_context
      rw [hlatest]
    · intro hnone
      unfold decodeMarketContext
      rw [hnone]
    · intro md hmd
      unfold decodeMarketContext
      rw [hmd]

/-- Witness for C6: the empty-table case, and the one-row case at a query
bound later than the stored timestamp. -/
theorem market_context_cases_witness :
    get_market_context [] "2024-01-05T00:00:00" = .empty ∧
    (∃ r, latestLogAtOrBefore [exLogRow] "2024-01-05T00:00:00" = some r ∧
      r ∈ [exLogRow] ∧
      sqliteTextLe r.timestamp "2024-01-05T00:00:00" = true ∧
      (∀ l ∈ [exLogRow], sqliteTextLe l.timestamp "2024-01-05T00:00:00" = true →
        sqliteTextLe l.timestamp r.timestamp = true) ∧
      get_market_context [exLogRow] "2024-01-05T00:00:00" = decodeMarketContext r ∧
      (json_loads r.market_data_json = none →
        decodeMarketContext r = .minimal r.current_price r.timestamp) ∧
      (∀ md, json_loads r.market_data_json = some (.obj md) →
        decodeMarketContext r = .full r.current_price
          (getField md "technical_indicators" (.obj []))
          (getField md "fear_greed_index" (.arr [])) r.timestamp)) :=
  ⟨(market_context_cases [] "2024-01-05T00:00:00").1 (by simp),
    (market_context_cases [exLogRow] "2024-01-05T00:00:00").2
      ⟨exLogRow, by simp, rfl⟩⟩

/-- C8: on every input where the write succeeds — the investment-status
value, when present, is a dictionary with field list `inv`, the inputs the
write path accepts — writing an analysis log and reading the most recent
log back returns exactly the written row: its decision, reason and
confidence equal the corresponding fields of the AI-analysis input, and its
three blobs decode back to the investment-status sub-object, the full
AI-analysis input, and the full market-data input. On the remaining inputs
`save_analysis_log` is `none`: the source raises there and writes
nothing, so no read-back arises. -/
theorem analysis_log_roundtrip (db : LogsDB) (md aa : List (String × Json))
    (ts atype : String) (inv : List (String × Json)) (d r c : Json)
    (hinv : investmentStatusFields md = some inv)
    (hd : lookupField aa "decision" = some d)
    (hr : lookupField aa "reason" = some r)
    (hc : lookupField aa "confidence" = some c) :
    ∃ db2 logId, save_analysis_log db md aa ts atype = some (db2, logId) ∧
      get_recent_logs db2 1 = [analysisLogRow db md aa ts atype inv] ∧
      (analysisLogRow db md aa ts atype inv).ai_decision = d ∧
      (analysisLogRow db md aa ts atype inv).ai_reason = r ∧
      (analysisLogRow db md aa ts atype inv).ai_confidence = c ∧
      json_loads (analysisLogRow db md aa ts atype inv).investment_status_json =
        some (.obj inv) ∧
      json_loads (analysisLogRow db md aa ts atype inv).ai_analysis_full_json =
        some (.obj aa) ∧
      json_loads (analysisLogRow db md aa ts atype inv).market_data_json =
        some (.obj md) := by
  refine ⟨{ rows := db.rows ++ [analysisLogRow db md aa ts atype inv]
            nextId := db.nextId + 1 }, db.nextId, ?_, ?_, ?_, ?_, ?_, rfl, rfl, rfl⟩
  · unfold save_analysis_log
    rw [hinv]
    rfl
  · unfold get_recent_logs
    simp
  · show getField aa "decision" (.str "") = d
    rw [getField, hd]
    rfl
  · show getField aa "reason" (.str "") = r
    rw [getField, hr]
    rfl
  · show getField aa "confidence" (.str "") = c
    rw [getField, hc]
    rfl

/-- Witness for C8 at the concrete example inputs. -/
theorem analysis_log_roundtrip_witness :
    investmentStatusFields exMarketData = some exInvStatus ∧
    lookupField exAiAnalysis "decision" = some (.str "buy") ∧
    lookupField exAiAnalysis "reason" = some (.str "uptrend") ∧
    lookupField exAiAnalysis "confidence" = some (.str "high") ∧
    (∃ db2 logId, save_analysis_log emptyLogs exMarketData exAiAnalysis
        "2024-01-02T10:00:00" "enhanced" = some (db2, logId) ∧
      get_recent_logs db2 1 =
        [analysisLogRow emptyLogs exMarketData exAiAnalysis
          "2024-01-02T10:00:00" "enhanced" exInvStatus] ∧
      (analysisLogRow emptyLogs exMarketData exAiAnalysis
          "2024-01-02T10:00:00" "enhanced" exInvStatus).ai_decision = .str "buy" ∧
      (analysisLogRow emptyLogs exMarketData exAiAnalysis
          "2024-01-02T10:00:00" "enhanced" exInvStatus).ai_reason = .str "uptrend" ∧
      (analysisLogRow emptyLogs exMarketData exAiAnalysis
          "2024-01-02T10:00:00" "enhanced" exInvStatus).ai_confidence = .str "high" ∧
      json_loads (analysisLogRow emptyLogs exMarketData exAiAnalysis
          "2024-01-02T10:00:00" "enhanced" exInvStatus).investment_status_json =
        some (.obj exInvStatus) ∧
      json_loads (analysisLogRow emptyLogs exMarketData exAiAnalysis
          "2024-01-02T10:00:00" "enhanced" exInvStatus).ai_analysis_full_json =
        some (.obj exAiAnalysis) ∧
      json_loads (analysisLogRow emptyLogs exMarketData exAiAnalysis
          "2024-01-02T10:00:00" "enhanced" exInvStatus).market_data_json =
        some (.obj exMarketData)) :=
  ⟨rfl, rfl, rfl, rfl,
    analysis_log_roundtrip emptyLogs exMarketData exAiAnalysis
      "2024-01-02T10:00:00" "enhanced" exInvStatus
      (.str "buy") (.str "uptrend") (.str "high") rfl rfl rfl rfl⟩

/-- C9: the migration importer returns normally on a missing file, skips
blank lines, forwards each decoded line to `save_analysis_log` — defaulting
an absent timestamp to the current time — and a raising line, whether it
raises during decode or inside the storage call, ends the import after the
already-imported lines, reported as an outcome rather than re-raised. -/
theorem migration_error_handling (db : LogsDB) (now : String) :
    migrate_from_json db .missing now = (db, .fileNotFound) ∧
    (∀ rest, migrateLines db now (.blank :: rest) = migrateLines db now rest) ∧
    (∀ md aa t rest db2 logId,
      save_analysis_log db md aa t "enhanced" = some (db2, logId) →
      migrateLines db now (.record md aa (some t) :: rest) =
        migrateLines db2 now rest) ∧
    (∀ md aa rest db2 logId,
      save_analysis_log db md aa now "enhanced" = some (db2, logId) →
      migrateLines db now (.record md aa none :: rest) =
        migrateLines db2 now rest) ∧
    (∀ md aa ts rest,
      save_analysis_log db md aa (ts.getD now) "enhanced" = none →
      migrateLines db now (.record md aa ts :: rest) = (db, .aborted)) ∧
    (∀ pre rest, (∀ l ∈ pre, l ≠ MigrationLine.malformed) →
      migrateLines db now (pre ++ MigrationLine.malformed :: rest) =
        ((migrateLines db now pre).1, .aborted)) := by
  refine ⟨rfl, fun _ => rfl, ?_, ?_, ?_,
    fun pre rest h => migrateLines_malformed_stops pre db now rest h⟩
  · intro md aa t rest db2 logId hsv
    simp only [migrateLines, Option.getD_some, hsv]
  · intro md aa rest db2 logId hsv
    simp only [migrateLines, Option.getD_none, hsv]
  · intro md aa ts rest hsv
    simp only [migrateLines, hsv]

/-- Witness for C9 on the empty table: a missing file, a record line with an
absent timestamp whose write succeeds, a record line whose write raises, and
a file whose second line raises after one blank line. -/
theorem migration_error_handling_witness :
    migrate_from_json emptyLogs .missing "2024-01-02T10:00:00" =
      (emptyLogs, .fileNotFound) ∧
    save_analysis_log emptyLogs exMarketData exAiAnalysis
        "2024-01-02T10:00:00" "enhanced" =
      some (⟨[analysisLogRow emptyLogs exMarketData exAiAnalysis
        "2024-01-02T10:00:00" "enhanced" exInvStatus], 2⟩, 1) ∧
    migrateLines emptyLogs "2024-01-02T10:00:00"
        [MigrationLine.record exMarketData exAiAnalysis none] =
      migrateLines
        ⟨[analysisLogRow emptyLogs exMarketData exAiAnalysis
          "2024-01-02T10:00:00" "enhanced" exInvStatus], 2⟩
        "2024-01-02T10:00:00" [] ∧
    save_analysis_log emptyLogs exBadMarketData exAiAnalysis
        ((some "2024-01-01T00:00:00").getD "2024-01-02T10:00:00") "enhanced" = none ∧
    migrateLines emptyLogs "2024-01-02T10:00:00"
        [MigrationLine.record exBadMarketData exAiAnalysis
          (some "2024-01-01T00:00:00")] = (emptyLogs, .aborted) ∧
    migrateLines emptyLogs "2024-01-02T10:00:00"
        ([MigrationLine.blank] ++ MigrationLine.malformed :: []) =
      ((migrateLines emptyLogs "2024-01-02T10:00:00" [MigrationLine.blank]).1,
        .aborted) :=
  ⟨(migration_error_handling emptyLogs "2024-01-02T10:00:00").1,
    rfl,
    (migration_error_handling emptyLogs "2024-01-02T10:00:00").2.2.2.1
      exMarketData exAiAnalysis []
      ⟨[analysisLogRow emptyLogs exMarketData exAiAnalysis
        "2024-01-02T10:00:00" "enhanced" exInvStatus], 2⟩ 1 rfl,
    rfl,
    (migration_error_handling emptyLogs "2024-01-02T10:00:00").2.2.2.2.1
      exBadMarketData exAiAnalysis (some "2024-01-01T00:00:00") [] rfl,
    (migration_error_handling emptyLogs "2024-01-02T10:00:00").2.2.2.2.2
      [MigrationLine.blank] [] (by simp)⟩
